import Mathlib

/-!
Shallow embedding of the SENTINEL ETL core version control system
(`src/utils.py`, `src/version_manager.py`, `src/comparison.py`,
`src/rollback.py`) together with theorems checking the natural-language
specification against the code.

Modelling conventions:
* Python strings are Lean `String`s; character-level reasoning goes through
  `String.toList`.
* Python `int(value)` / `float(value)` literal parsing is modelled on
  decimal literals with optional sign, surrounding ASCII whitespace and,
  for floats, an optional fraction/exponent and the `inf`/`nan` specials.
  (CPython additionally accepts underscore digit grouping and some Unicode
  digits; no input in this development uses those.)
* The file system is explicit state: directory listings are lists of
  entries, JSON files are sum types distinguishing "missing", "unreadable"
  and parsed content, and fallible I/O steps take a Boolean outcome flag
  (`true` = the underlying I/O succeeded, `false` = it raised and the
  `except` handler swallowed the error).
* Timestamps (`get_timestamp()`) are opaque string parameters.
-/

namespace SentinelETL

/-- ASCII whitespace as stripped by Python `str.strip()` (restricted to the
whitespace characters `Char.isWhitespace` knows; no input here uses the
more exotic Unicode whitespace CPython also strips). -/
def isWs (c : Char) : Bool := c.isWhitespace

/-- Model of Python `str.strip()`: drop whitespace from both ends. -/
def pyStrip (cs : List Char) : List Char :=
  ((cs.dropWhile isWs).reverse.dropWhile isWs).reverse

/-- Drop one leading `+`/`-` sign if present (shared by the `int()` and
`float()` literal grammars). -/
def stripSign1 (cs : List Char) : List Char :=
  if cs.head? = some '+' || cs.head? = some '-' then cs.tail else cs

/-- Numeric value of a list of decimal digit characters. -/
def digitsToNat (cs : List Char) : Nat :=
  cs.foldl (fun a c => a * 10 + (c.toNat - '0'.toNat)) 0

/-- A nonempty all-digit character run, as the digit part of an `int()`
literal; `none` models `ValueError`. -/
def pyIntDigits (r : List Char) : Option Nat :=
  if !r.isEmpty && r.all Char.isDigit then some (digitsToNat r) else none

/-- Optional sign then one or more decimal digits, the body of an `int()`
literal. -/
def pyParseIntChars (cs : List Char) : Option Int :=
  if cs.head? = some '-' then (pyIntDigits cs.tail).map (fun n => -(Int.ofNat n))
  else if cs.head? = some '+' then (pyIntDigits cs.tail).map (fun n => Int.ofNat n)
  else (pyIntDigits cs).map (fun n => Int.ofNat n)

/-- Model of Python `int(value)` on a string: strip whitespace, optional
sign, then one or more decimal digits; `none` models `ValueError`. -/
def pyParseInt (s : String) : Option Int :=
  pyParseIntChars (pyStrip s.toList)

/-- Exponent suffix of a Python float literal: empty, or `e`/`E`, an
optional sign and at least one digit. -/
def floatExpOk : List Char → Bool
  | [] => true
  | c :: r =>
    (c == 'e' || c == 'E') &&
      (let r' := stripSign1 r
       !r'.isEmpty && r'.all Char.isDigit)

/-- Unsigned body of a Python float literal: digits with an optional
fraction, or a leading-dot fraction, followed by an optional exponent. -/
def floatBodyOk (cs : List Char) : Bool :=
  let ip := cs.takeWhile Char.isDigit
  let rest := cs.dropWhile Char.isDigit
  if rest.head? = some '.' then
    let rest2 := rest.tail
    let fp := rest2.takeWhile Char.isDigit
    let rest3 := rest2.dropWhile Char.isDigit
    (!ip.isEmpty || !fp.isEmpty) && floatExpOk rest3
  else !ip.isEmpty && floatExpOk rest

/-- Special float tokens accepted case-insensitively by Python `float()`. -/
def floatSpecials : List (List Char) :=
  [['i','n','f'], ['i','n','f','i','n','i','t','y'], ['n','a','n']]

/-- Model of Python `float(value)` succeeding on a string. -/
def pyFloatOk (s : String) : Bool :=
  let cs := stripSign1 (pyStrip s.toList)
  floatBodyOk cs || floatSpecials.contains (cs.map Char.toLower)

/-- Source `VersionManager._is_integer`: `int(value)` succeeds. -/
def is_integer (value : String) : Bool := (pyParseInt value).isSome

/-- Source `VersionManager._is_float`: `float(value)` succeeds and the raw
string contains a decimal point. -/
def is_float (value : String) : Bool :=
  pyFloatOk value && value.toList.contains '.'

/-- Lower-cased spellings accepted by `VersionManager._is_boolean`. -/
def boolTokens : List (List Char) :=
  [['t','r','u','e'], ['f','a','l','s','e'], ['y','e','s'], ['n','o'], ['1'], ['0']]

/-- Source `VersionManager._is_boolean`: `value.lower()` is one of
`true`, `false`, `yes`, `no`, `1`, `0`. -/
def is_boolean (value : String) : Bool :=
  decide ((value.toList.map Char.toLower) ∈ boolTokens)

/-- The value classes distinguished inside `VersionManager._infer_data_types`. -/
inductive VType where
  | null
  | integer
  | float
  | boolean
  | string
deriving DecidableEq, Repr

/-- The `if`/`elif` classification chain applied to one sampled cell value
in `VersionManager._infer_data_types` (`not value or value.strip() == ''`
first, then `_is_integer`, `_is_float`, `_is_boolean`, else string). -/
def classifyValue (value : String) : VType :=
  if value.toList.isEmpty || (pyStrip value.toList).isEmpty then .null
  else if is_integer value then .integer
  else if is_float value then .float
  else if is_boolean value then .boolean
  else .string

/-- Classification of a `DictReader` cell which may be absent (`None`, the
`restval` fill-in): `None` is falsy, so it lands in the null class. -/
def classifyOpt : Option String → VType
  | none => .null
  | some v => classifyValue v

/-- The priority selection at the end of `VersionManager._infer_data_types`:
`float` if seen, else `integer`, else `boolean`, else `string`. -/
def columnTypeFromClasses (found : List VType) : String :=
  if VType.float ∈ found then "float"
  else if VType.integer ∈ found then "integer"
  else if VType.boolean ∈ found then "boolean"
  else "string"

/-- Inferred type of one column from its sampled cell values (the cells of
the first `min(100, 100)` `DictReader` rows). -/
def inferColumnType (vals : List (Option String)) : String :=
  columnTypeFromClasses ((vals.take 100).map classifyOpt)

/-- Spec-side description of the final column type ("if any sampled value
is float-shaped, the whole column is float, else if any is integer-shaped
it is integer, else if any is boolean-shaped it is boolean, else string"),
with the shapes taken independently, to be compared with the source
computation `inferColumnType`. -/
def specColumnType (vals : List (Option String)) : String :=
  if (vals.take 100).any (fun v => (v.map is_float).getD false) then "float"
  else if (vals.take 100).any (fun v => (v.map is_integer).getD false) then "integer"
  else if (vals.take 100).any (fun v => (v.map is_boolean).getD false) then "boolean"
  else "string"

/-! ### CSV reading outcomes and `_analyze_csv` -/

/-- Outcome of opening a CSV file and iterating its records, as seen by the
`try` blocks of `VersionManager._analyze_csv` / `_infer_data_types`:
either opening the file or reading the header record raises
(`readFail`), or the header is read successfully but iterating the
remaining records raises (`rowsFail`, carrying the header already read),
or everything is read (`ok`, carrying all records, header included). -/
inductive CsvRead where
  | readFail
  | rowsFail (header : List String)
  | ok (records : List (List String))
deriving DecidableEq, Repr

/-- Source `VersionManager._analyze_csv`: `row_count` and `columns` start
as `0` / `[]`; inside the `try`, `columns` is assigned the header record
(`next(reader, [])`) and then `row_count` the number of remaining records;
an exception is caught, keeping whatever was assigned before it. -/
def analyze_csv : CsvRead → Nat × List String
  | .readFail => (0, [])
  | .rowsFail header => (0, header)
  | .ok records => (records.tail.length, records.headD [])

/-- Index of the winning assignment for a key of `dict(zip(fieldnames, row))`
with `restval` back-fill: the last occurrence of the key in the header. -/
def lastIdxOf (header : List String) (col : String) : Option Nat :=
  ((header.enum.filter (fun p => p.2 == col)).getLast?).map (fun p => p.1)

/-- Cell value a `csv.DictReader` row dictionary holds for column `col`:
the row value at the last header occurrence of `col`, or `none` (Python
`None`, the `restval`) when the row is shorter. -/
def rowValue (header row : List String) (col : String) : Option String :=
  match lastIdxOf header col with
  | none => none
  | some i => row.get? i

/-- Source `VersionManager._infer_data_types`: every column starts as
`"string"`; inside the `try`, the first 100 `DictReader` rows are sampled
(`DictReader` skips blank records) and each column is classified with the
priority selection; any exception is caught, keeping the initial
all-`"string"` mapping. -/
def infer_data_types (columns : List String) (file : CsvRead) : List (String × String) :=
  match file with
  | .ok records =>
    let header := records.headD []
    let sample := (records.tail.filter (fun r => !r.isEmpty)).take 100
    columns.map (fun col =>
      (col,
        if col ∈ header then
          columnTypeFromClasses (sample.map (fun row => classifyOpt (rowValue header row col)))
        else "string"))
  | _ => columns.map (fun col => (col, "string"))

/-! ### Version directory listing -/

/-- One entry of the `versions/` directory listing (`os.listdir` plus the
`os.path.isdir` test). -/
structure DirEntry where
  name : String
  isDir : Bool
deriving DecidableEq, Repr

/-- Python `item[1:]` as a character list. -/
def tailChars (item : String) : List Char := item.toList.tail

/-- Python `item.startswith('v')`. -/
def startsWithV (item : String) : Bool := item.toList.head? == some 'v'

/-- Python `int(item[1:])` on a directory entry named `item`. -/
def versionNumOf (item : String) : Option Int :=
  pyParseIntChars (pyStrip (tailChars item))

/-- The numeric suffixes collected by `get_next_version_number` in
`utils.py`: entries starting with `v` that are directories and whose
remainder parses as an integer. -/
def existingVersionNums (entries : List DirEntry) : List Int :=
  entries.filterMap (fun e =>
    if startsWithV e.name && e.isDir then versionNumOf e.name else none)

/-- Source `utils.get_next_version_number`: `1` when no version directory
exists, otherwise `max(existing_versions) + 1`. -/
def get_next_version_number (entries : List DirEntry) : Int :=
  match existingVersionNums entries with
  | [] => 1
  | x :: xs => xs.foldl max x + 1

/-- Sort key used by `VersionManager.get_all_versions`
(`key=lambda x: int(x[1:])`; the parse always succeeds on the filtered
entries, `getD` is only a totalization). -/
def versionSortKey (item : String) : Int := (versionNumOf item).getD 0

/-- Numeric order on version directory names. -/
def versionLe (a b : String) : Prop := versionSortKey a ≤ versionSortKey b

instance : DecidableRel versionLe := fun a b =>
  inferInstanceAs (Decidable (versionSortKey a ≤ versionSortKey b))

instance : IsTotal String versionLe := ⟨fun a b => le_total (versionSortKey a) (versionSortKey b)⟩

instance : IsTrans String versionLe := ⟨fun _ _ _ hab hbc => le_trans hab hbc⟩

/-- The filter of `VersionManager.get_all_versions`: names starting with
`v` that are directories and whose suffix parses as an integer. -/
def versionDirFilter (entries : List DirEntry) : List String :=
  entries.filterMap (fun e =>
    if startsWithV e.name && e.isDir && (versionNumOf e.name).isSome then
      some e.name
    else none)

/-- Source `VersionManager.get_all_versions`: filter the directory listing
to `v<integer>` directories and sort by the numeric suffix. -/
def get_all_versions (entries : List DirEntry) : List String :=
  List.insertionSort versionLe (versionDirFilter entries)

/-! ### Metadata records and the version store state -/

/-- One backup annotation appended by `RollbackManager._create_rollback_backup`. -/
structure BackupInfo where
  backup_timestamp : String
  backed_up_version : String
  reason : String
deriving DecidableEq, Repr

/-- A version's `metadata.json` record. Optional fields model keys that are
present only when the corresponding configuration toggle is on; `backups`
is an array field added only when annotations exist (`[]` = absent). -/
structure Metadata where
  version : String
  created_at : String
  source_file : String
  row_count : Option Nat
  columns : Option (List String)
  column_count : Option Nat
  data_types : Option (List (String × String))
  file_hash : Option String
  file_size_bytes : Option Nat
  quality_score : Option Rat
  backups : List BackupInfo
deriving DecidableEq, Repr

/-- The `metadata` section of the configuration file. -/
structure MetaConfig where
  include_row_count : Bool
  include_columns : Bool
  include_data_types : Bool
  include_file_hash : Bool
  include_file_size : Bool
deriving DecidableEq, Repr

/-- Python `os.path.basename`: everything after the last `/`. -/
def pyBasename (p : String) : String :=
  ⟨(p.toList.reverse.takeWhile (fun c => c != '/')).reverse⟩

/-- Python `name.endswith('.csv')`. -/
def endsWithCsv (s : String) : Bool := List.isSuffixOf ['.', 'c', 's', 'v'] s.toList

/-- Source `VersionManager._generate_metadata`: CSV analysis results are
recorded only for `.csv` files and only under their configuration
toggles. `fileHash` and `fileSize` stand for `get_file_hash` /
`get_file_size` of the copied dataset. -/
def generate_metadata (cfg : MetaConfig) (version_name : String) (dataset_filename : String)
    (source_file : String) (file : CsvRead) (fileHash : String) (fileSize : Nat)
    (quality_score : Option Rat) (ts : String) : Metadata :=
  let isCsv := endsWithCsv dataset_filename
  let rc := (analyze_csv file).1
  let cols := (analyze_csv file).2
  { version := version_name
    created_at := ts
    source_file := source_file
    row_count := if isCsv && cfg.include_row_count then some rc else none
    columns := if isCsv && cfg.include_columns then some cols else none
    column_count := if isCsv && cfg.include_columns then some cols.length else none
    data_types := if isCsv && cfg.include_data_types then some (infer_data_types cols file) else none
    file_hash := if cfg.include_file_hash then some fileHash else none
    file_size_bytes := if cfg.include_file_size then some fileSize else none
    quality_score := quality_score
    backups := [] }

/-- Lookup of `versions/<name>/metadata.json` in the association-list model
of the versions directory (`none` models a missing file). -/
def lookupMeta (m : List (String × Metadata)) (k : String) : Option Metadata :=
  (m.find? (fun p => p.1 == k)).map (fun p => p.2)

/-- Writing `versions/<name>/metadata.json`: overwrite the record if the
file exists, create it otherwise. -/
def setMeta (m : List (String × Metadata)) (k : String) (v : Metadata) :
    List (String × Metadata) :=
  if m.any (fun p => p.1 == k) then
    m.map (fun p => if p.1 == k then (k, v) else p)
  else m ++ [(k, v)]

/-- One entry of the master index (`VersionManager._update_index`). -/
structure IndexEntry where
  version : String
  created_at : String
  row_count : Option Nat
  column_count : Option Nat
  quality_score : Option Rat
  file_hash : Option String
deriving DecidableEq, Repr

/-- The parsed master index file. -/
structure IndexFile where
  versions : List IndexEntry
  created_at : String
  last_updated : Option String
deriving DecidableEq, Repr

/-- Source `VersionManager._update_index` (the model idealizes the index
file as either missing or well-formed; a corrupt index would propagate a
parse error, a case no claim exercises). -/
def update_index (idx : Option IndexFile) (version_name : String) (md : Metadata)
    (ts : String) : IndexFile :=
  let base := match idx with
    | some i => i
    | none => { versions := [], created_at := ts, last_updated := none }
  { base with
    versions := base.versions ++
      [{ version := version_name
         created_at := md.created_at
         row_count := md.row_count
         column_count := md.column_count
         quality_score := md.quality_score
         file_hash := md.file_hash }]
    last_updated := some ts }

/-- One record of the rollback audit log (`from_version` is `None` when the
marker was unset at rollback time). -/
structure RollbackEvent where
  timestamp : String
  from_version : Option String
  to_version : String
deriving DecidableEq, Repr

/-- State of `<logs-dir>/rollback_history.json`: absent, present but
unparseable (`load_json` raises), or parsed — with the `"rollbacks"` key
present (`parsed (some _)`) or absent (`parsed none`). -/
inductive LogFile where
  | missing
  | unreadable
  | parsed (rollbacks : Option (List RollbackEvent))
deriving DecidableEq, Repr

/-- The persisted state the claims range over: the `versions/` directory
listing, the per-version metadata files, the current-version marker file
(holding the stripped identifier, or absent), the master index and the
rollback log. -/
structure FsState where
  entries : List DirEntry
  metadataOf : List (String × Metadata)
  currentVersionFile : Option String
  indexFile : Option IndexFile
  rollbackLog : LogFile
deriving DecidableEq, Repr

/-- Source `VersionManager.get_current_version`: marker value or `None`. -/
def get_current_version (st : FsState) : Option String := st.currentVersionFile

/-- Effect of `ensure_directory` on the versions listing. -/
def ensureDirEntry (entries : List DirEntry) (name : String) : List DirEntry :=
  if entries.any (fun e => e.name == name) then entries else entries ++ [⟨name, true⟩]

/-- Errors raised by `VersionManager.create_version`. -/
inductive CreateError where
  | inputNotFound
  | invalidQualityScore
deriving DecidableEq, Repr

/-- Source `VersionManager.create_version`. The pair returns the resulting
persisted state (unchanged when an error is raised) alongside the result.
`inputExists` models `os.path.exists(input_file)` and `file` the outcome of
reading the copied dataset (`shutil.copy2` preserves content, so the copy
reads as the input does). -/
def create_version (cfg : MetaConfig) (st : FsState) (inputExists : Bool)
    (input_file : String) (file : CsvRead) (fileHash : String) (fileSize : Nat)
    (quality_score : Option Rat) (ts : String) : FsState × Except CreateError String :=
  if !inputExists then (st, .error .inputNotFound)
  else if quality_score.any (fun q => !(decide (0 ≤ q) && decide (q ≤ 100))) then
    (st, .error .invalidQualityScore)
  else
    let n := get_next_version_number st.entries
    let version_name := "v" ++ toString n
    let entries1 := ensureDirEntry st.entries version_name
    let md := generate_metadata cfg version_name (pyBasename input_file) input_file file
      fileHash fileSize quality_score ts
    ({ entries := entries1
       metadataOf := setMeta st.metadataOf version_name md
       currentVersionFile := some version_name
       indexFile := some (update_index st.indexFile version_name md ts)
       rollbackLog := st.rollbackLog },
     .ok version_name)

/-- Source `VersionManager.get_version_metadata` (`none` models the
`FileNotFoundError` raised when the metadata file is absent). -/
def get_version_metadata (st : FsState) (version_name : String) : Option Metadata :=
  lookupMeta st.metadataOf version_name

/-! ### Comparison engine -/

/-- The `comparison` section of the configuration file. -/
structure CompareConfig where
  compare_row_count : Bool
  compare_columns : Bool
  compare_data_types : Bool
  include_sample_data : Bool
  sample_size : Nat
deriving DecidableEq, Repr

/-- Python `round(x, 2)` on the exact rational value (Python rounds the
nearest double half-to-even; the distinction is irrelevant here, where the
rounded value is `0`). -/
def round2 (q : Rat) : Rat := ((round (q * 100) : Int) : Rat) / 100

/-- Result of `VersionComparator._compare_row_counts`. -/
structure RowCountComparison where
  version1_row_count : Nat
  version2_row_count : Nat
  difference : Int
  percentage_change : Rat
  direction : String
deriving DecidableEq, Repr

/-- Source `VersionComparator._compare_row_counts`: absent `row_count`
metadata defaults to `0`. -/
def compare_row_counts (md1 md2 : Metadata) : RowCountComparison :=
  let r1 := md1.row_count.getD 0
  let r2 := md2.row_count.getD 0
  let diff : Int := (r2 : Int) - (r1 : Int)
  { version1_row_count := r1
    version2_row_count := r2
    difference := diff
    percentage_change := if 0 < r1 then round2 ((diff : Rat) / (r1 : Rat) * 100) else round2 0
    direction := if 0 < diff then "increase" else if diff < 0 then "decrease" else "no change" }

/-- Result of `VersionComparator._compare_columns`; the Python lists are
built from sets in unspecified iteration order, so they are modelled as
finite sets. -/
structure ColumnComparison where
  version1_column_count : Nat
  version2_column_count : Nat
  added_columns : Finset String
  removed_columns : Finset String
  common_columns : Finset String
  columns_added_count : Nat
  columns_removed_count : Nat
deriving DecidableEq

/-- Source `VersionComparator._compare_columns`. -/
def compare_columns (md1 md2 : Metadata) : ColumnComparison :=
  let c1 := (md1.columns.getD []).toFinset
  let c2 := (md2.columns.getD []).toFinset
  { version1_column_count := c1.card
    version2_column_count := c2.card
    added_columns := c2 \ c1
    removed_columns := c1 \ c2
    common_columns := c1 ∩ c2
    columns_added_count := (c2 \ c1).card
    columns_removed_count := (c1 \ c2).card }

/-- One changed column reported by `VersionComparator._compare_data_types`. -/
structure TypeChange where
  column : String
  version1_type : String
  version2_type : String
deriving DecidableEq, Repr

/-- Result of `VersionComparator._compare_data_types`. -/
structure DataTypeComparison where
  changed_columns : List TypeChange
  total_changes : Nat
deriving DecidableEq, Repr

/-- Python `dict.get` / `in` on the association-list model of a JSON
object (dictionaries have unique keys; the first match is the value). -/
def pyDictGet (l : List (String × String)) (k : String) : Option String :=
  (l.find? (fun p => p.1 == k)).map (fun p => p.2)

/-- The loop of `VersionComparator._compare_data_types`: columns present
in both type maps whose types differ, with old and new type. -/
def changedTypes (t1 t2 : List (String × String)) : List TypeChange :=
  t1.filterMap (fun p =>
    match pyDictGet t2 p.1 with
    | some ty2 => if p.2 ≠ ty2 then some ⟨p.1, p.2, ty2⟩ else none
    | none => none)

/-- Source `VersionComparator._compare_data_types`. -/
def compare_data_types (md1 md2 : Metadata) : DataTypeComparison :=
  { changed_columns := changedTypes (md1.data_types.getD []) (md2.data_types.getD [])
    total_changes := (changedTypes (md1.data_types.getD []) (md2.data_types.getD [])).length }

/-- Source `VersionComparator._read_csv_sample` on a successfully read
dataset: the first `sample_size` `DictReader` rows as column dictionaries. -/
def read_csv_sample (records : List (List String)) (sample_size : Nat) :
    List (List (String × Option String)) :=
  let header := records.headD []
  ((records.tail.filter (fun r => !r.isEmpty)).take sample_size).map (fun row =>
    header.map (fun col => (col, rowValue header row col)))

/-- Result of `VersionComparator._compare_sample_data`. -/
structure SampleDataComparison where
  version1_sample : List (List (String × Option String))
  version2_sample : List (List (String × Option String))
  sample_size : Nat
deriving DecidableEq, Repr

/-- The summary block of a comparison report. -/
structure Summary where
  total_differences : Nat
  key_changes : List String
deriving DecidableEq, Repr

/-- Source `VersionComparator._generate_summary`: count one signal per
present-and-nonzero difference, and report the no-difference message when
no signal fired. -/
def generate_summary (rcc : Option RowCountComparison) (cc : Option ColumnComparison)
    (dtc : Option DataTypeComparison) : Summary :=
  let s0 : Summary := { total_differences := 0, key_changes := [] }
  let s1 : Summary := match rcc with
    | some r =>
      if r.difference ≠ 0 then
        { total_differences := s0.total_differences + 1
          key_changes := s0.key_changes ++
            ["Row count changed by " ++ toString r.difference ++ " (" ++
              toString r.percentage_change ++ "%)"] }
      else s0
    | none => s0
  let s2 : Summary := match cc with
    | some c =>
      let sA : Summary := if 0 < c.columns_added_count then
          { total_differences := s1.total_differences + 1
            key_changes := s1.key_changes ++ [toString c.columns_added_count ++ " columns added"] }
        else s1
      if 0 < c.columns_removed_count then
        { total_differences := sA.total_differences + 1
          key_changes := sA.key_changes ++ [toString c.columns_removed_count ++ " columns removed"] }
      else sA
    | none => s1
  let s3 : Summary := match dtc with
    | some d =>
      if 0 < d.total_changes then
        { total_differences := s2.total_differences + 1
          key_changes := s2.key_changes ++ [toString d.total_changes ++ " data types changed"] }
      else s2
    | none => s2
  if s3.total_differences = 0 then
    { s3 with key_changes := s3.key_changes ++ ["No significant differences found"] }
  else s3

/-- A full comparison report. -/
structure Comparison where
  comparison_timestamp : String
  version1 : String
  version2 : String
  version1_created_at : String
  version2_created_at : String
  row_count_comparison : Option RowCountComparison
  column_comparison : Option ColumnComparison
  data_type_comparison : Option DataTypeComparison
  sample_data_comparison : Option SampleDataComparison
  summary : Summary
deriving DecidableEq

/-- Source `VersionComparator.compare_versions` on two versions whose
metadata and datasets exist (the not-found error paths of
`get_version_metadata` / `get_version_dataset_path` precede everything
modelled here). -/
def compare_versions (ccfg : CompareConfig) (version1 version2 : String)
    (md1 md2 : Metadata) (ds1 ds2 : List (List String)) (ts : String) : Comparison :=
  let rcc := if ccfg.compare_row_count then some (compare_row_counts md1 md2) else none
  let cc := if ccfg.compare_columns then some (compare_columns md1 md2) else none
  let dtc := if ccfg.compare_data_types then some (compare_data_types md1 md2) else none
  let sdc := if ccfg.include_sample_data then
      some { version1_sample := read_csv_sample ds1 ccfg.sample_size
             version2_sample := read_csv_sample ds2 ccfg.sample_size
             sample_size := ccfg.sample_size }
    else none
  { comparison_timestamp := ts
    version1 := version1
    version2 := version2
    version1_created_at := md1.created_at
    version2_created_at := md2.created_at
    row_count_comparison := rcc
    column_comparison := cc
    data_type_comparison := dtc
    sample_data_comparison := sdc
    summary := generate_summary rcc cc dtc }

/-! ### Rollback manager -/

/-- The `version_management` section of the configuration file. -/
structure RbConfig where
  backup_before_rollback : Bool
deriving DecidableEq, Repr

/-- Errors raised by `RollbackManager.rollback_to_version`. -/
inductive RbError where
  | notFound (target : String)
  | alreadyAt (target : String)
deriving DecidableEq, Repr

/-- The backup annotation `_create_rollback_backup` appends. -/
def addBackup (md : Metadata) (ts name : String) : Metadata :=
  { md with backups := md.backups ++ [⟨ts, name, "Pre-rollback backup"⟩] }

/-- Source `RollbackManager._create_rollback_backup`: best-effort. `ioOk`
models whether the underlying file I/O succeeded; any exception (including
the `TypeError` from joining a `None` version name) is caught. When the
metadata file does not exist the step is skipped without error. -/
def create_rollback_backup (m : List (String × Metadata)) (version : Option String)
    (ts : String) (ioOk : Bool) : List (String × Metadata) :=
  if !ioOk then m
  else match version with
    | none => m
    | some name =>
      match lookupMeta m name with
      | none => m
      | some md => setMeta m name (addBackup md ts name)

/-- Source `RollbackManager._log_rollback_event`: best-effort append. A
missing log file is initialized to `{"rollbacks": []}`; an unreadable one
makes `load_json` raise (caught, no change); a parsed object without the
`"rollbacks"` key makes the subscript raise `KeyError` (caught, no
change). -/
def log_rollback_event (lf : LogFile) (ev : RollbackEvent) (ioOk : Bool) : LogFile :=
  if !ioOk then lf
  else match lf with
    | .missing => .parsed (some [ev])
    | .unreadable => lf
    | .parsed none => lf
    | .parsed (some evs) => .parsed (some (evs ++ [ev]))

/-- Source `RollbackManager.get_rollback_history`: list of recorded events,
`[]` when the file is missing, unreadable or lacks the `"rollbacks"` key. -/
def get_rollback_history : LogFile → List RollbackEvent
  | .missing => []
  | .unreadable => []
  | .parsed none => []
  | .parsed (some evs) => evs

/-- Source `RollbackManager.rollback_to_version`. The pair returns the
resulting persisted state (unchanged when an error is raised) alongside
the raised error or the returned `True`. `backupOk` / `auditOk` are the
I/O outcomes of the two best-effort steps. -/
def rollback_to_version (cfg : RbConfig) (st : FsState) (target_version : String)
    (create_backup : Bool) (ts : String) (backupOk auditOk : Bool) :
    FsState × Except RbError Bool :=
  if target_version ∉ get_all_versions st.entries then
    (st, .error (.notFound target_version))
  else
    let current_version := get_current_version st
    if current_version = some target_version then
      (st, .error (.alreadyAt target_version))
    else
      let meta1 :=
        if create_backup && cfg.backup_before_rollback then
          create_rollback_backup st.metadataOf current_version ts backupOk
        else st.metadataOf
      let log1 := log_rollback_event st.rollbackLog
        ⟨ts, current_version, target_version⟩ auditOk
      ({ st with
          metadataOf := meta1
          currentVersionFile := some target_version
          rollbackLog := log1 },
       .ok true)

/-- A rollback log to which `_log_rollback_event` can actually append: the
file is missing or parses with a `"rollbacks"` list. -/
def LogWritable : LogFile → Prop
  | .missing => True
  | .unreadable => False
  | .parsed none => False
  | .parsed (some _) => True

instance : DecidablePred LogWritable := fun lf => by
  cases lf with
  | missing => exact .isTrue trivial
  | unreadable => exact .isFalse id
  | parsed o => cases o with
    | none => exact .isFalse id
    | some evs => exact .isTrue trivial

/-- A concrete metadata record used by witness instantiations. -/
def mdDemo : Metadata :=
  { version := "v1"
    created_at := "t0"
    source_file := "data.csv"
    row_count := some 3
    columns := some ["a", "b"]
    column_count := some 2
    data_types := some [("a", "integer"), ("b", "float")]
    file_hash := some "h"
    file_size_bytes := some 9
    quality_score := none
    backups := [] }

/-! ### Lemmas about the value classifier -/

theorem mem_pyStrip {c : Char} {cs : List Char} (hc : c ∈ cs) (hw : isWs c = false) :
    c ∈ pyStrip cs := by
  have step : ∀ l : List Char, c ∈ l → c ∈ l.dropWhile isWs := by
    intro l hl
    have hsplit := List.takeWhile_append_dropWhile (p := isWs) (l := l)
    rw [← hsplit] at hl
    rcases List.mem_append.mp hl with h | h
    · exact absurd (List.mem_takeWhile_imp h) (by simp [hw])
    · exact h
  unfold pyStrip
  rw [List.mem_reverse]
  exact step _ (List.mem_reverse.mpr (step _ hc))

theorem isSome_of_map_isSome {α β : Type} {f : α → β} {o : Option α}
    (h : (o.map f).isSome = true) : o.isSome = true := by
  cases o with
  | none => simp at h
  | some a => rfl

theorem strip_nil_of_null {v : String}
    (h : (v.toList.isEmpty || (pyStrip v.toList).isEmpty) = true) :
    pyStrip v.toList = [] := by
  rw [Bool.or_eq_true] at h
  rcases h with h1 | h1
  · have hnil : v.toList = [] := by
      cases he : v.toList with
      | nil => rfl
      | cons a l => rw [he] at h1; simp at h1
    rw [hnil]; rfl
  · cases he : pyStrip v.toList with
    | nil => rfl
    | cons a l => rw [he] at h1; simp at h1

theorem nullCond_false_of_strip_ne_nil {v : String} (h : pyStrip v.toList ≠ []) :
    (v.toList.isEmpty || (pyStrip v.toList).isEmpty) = false := by
  cases hn : (v.toList.isEmpty || (pyStrip v.toList).isEmpty) with
  | false => rfl
  | true => exact absurd (strip_nil_of_null hn) h

theorem pyIntDigits_no_dot {r : List Char} (h : (pyIntDigits r).isSome = true) :
    '.' ∉ r := by
  intro hx
  rw [pyIntDigits] at h
  split_ifs at h with hc
  · rw [Bool.and_eq_true] at hc
    have := List.all_eq_true.mp hc.2 _ hx
    simp at this
  · simp at h

theorem pyParseIntChars_no_dot {cs : List Char} (h : (pyParseIntChars cs).isSome = true) :
    '.' ∉ cs := by
  intro hx
  rw [pyParseIntChars] at h
  split_ifs at h with h1 h2
  · cases cs with
    | nil => simp at h1
    | cons a l =>
      have ha : a = '-' := by simpa using h1
      rcases List.mem_cons.mp hx with hd | hd
      · rw [ha] at hd; exact absurd hd (by decide)
      · exact pyIntDigits_no_dot (isSome_of_map_isSome h) hd
  · cases cs with
    | nil => simp at h2
    | cons a l =>
      have ha : a = '+' := by simpa using h2
      rcases List.mem_cons.mp hx with hd | hd
      · rw [ha] at hd; exact absurd hd (by decide)
      · exact pyIntDigits_no_dot (isSome_of_map_isSome h) hd
  · exact pyIntDigits_no_dot (isSome_of_map_isSome h) hx

theorem is_integer_eq_false_of_null {v : String}
    (h : (v.toList.isEmpty || (pyStrip v.toList).isEmpty) = true) :
    is_integer v = false := by
  have hnil := strip_nil_of_null h
  unfold is_integer pyParseInt
  rw [hnil]
  decide

theorem pyFloatOk_eq_false_of_strip_nil {v : String} (hnil : pyStrip v.toList = []) :
    pyFloatOk v = false := by
  unfold pyFloatOk
  rw [hnil]
  decide

theorem is_float_eq_false_of_null {v : String}
    (h : (v.toList.isEmpty || (pyStrip v.toList).isEmpty) = true) :
    is_float v = false := by
  unfold is_float
  rw [pyFloatOk_eq_false_of_strip_nil (strip_nil_of_null h)]
  rfl

/-- A whitespace character is unchanged by `Char.toLower`. -/
theorem toLower_of_ws {c : Char} (h : isWs c = true) : Char.toLower c = c := by
  have : c = ' ' ∨ c = '\t' ∨ c = '\r' ∨ c = '\n' := by
    rw [isWs, Char.isWhitespace] at h
    simp only [Bool.or_eq_true, decide_eq_true_eq] at h
    tauto
  rcases this with rfl | rfl | rfl | rfl <;> decide

theorem is_boolean_eq_false_of_null {v : String}
    (h : (v.toList.isEmpty || (pyStrip v.toList).isEmpty) = true) :
    is_boolean v = false := by
  have hnil := strip_nil_of_null h
  have hall : ∀ c ∈ v.toList, isWs c = true := by
    intro c hc
    by_contra hcw
    have hcw' : isWs c = false := by
      cases hx : isWs c with
      | false => rfl
      | true => exact absurd hx hcw
    have := mem_pyStrip hc hcw'
    rw [hnil] at this
    simp at this
  cases hb : is_boolean v with
  | false => rfl
  | true =>
    exfalso
    rw [is_boolean] at hb
    have hm := of_decide_eq_true hb
    have hne : v.toList ≠ [] := by
      intro h0
      rw [h0] at hm
      simp [boolTokens] at hm
    obtain ⟨c, rest, hcr⟩ := List.exists_cons_of_ne_nil hne
    have hc : isWs c = true := hall c (by rw [hcr]; exact List.mem_cons_self c rest)
    rw [hcr, List.map_cons] at hm
    have hlow := toLower_of_ws hc
    have hcws : c = ' ' ∨ c = '\t' ∨ c = '\r' ∨ c = '\n' := by
      rw [isWs, Char.isWhitespace] at hc
      simp only [Bool.or_eq_true, decide_eq_true_eq] at hc
      tauto
    simp only [boolTokens, List.mem_cons, List.not_mem_nil, or_false] at hm
    rcases hm with h0 | h0 | h0 | h0 | h0 | h0 <;>
      (rw [List.cons_eq_cons] at h0; rw [hlow] at h0;
       rcases hcws with rfl | rfl | rfl | rfl <;> exact absurd h0.1 (by decide))

/-- `_is_integer` and `_is_float` can never both accept a value: an
`int()`-accepted string contains no decimal point. -/
theorem not_is_integer_of_is_float {v : String} (h : is_float v = true) :
    is_integer v = false := by
  rw [is_float, Bool.and_eq_true] at h
  obtain ⟨-, hdot⟩ := h
  have hdotmem : '.' ∈ v.toList := by simpa using hdot
  have hmem : '.' ∈ pyStrip v.toList := mem_pyStrip hdotmem (by decide)
  cases hi : is_integer v with
  | false => rfl
  | true =>
    exfalso
    rw [is_integer, pyParseInt] at hi
    exact pyParseIntChars_no_dot hi hmem

/-! ### Characterizations of the classification chain -/

theorem classifyValue_eq_integer {v : String} :
    classifyValue v = VType.integer ↔ is_integer v = true := by
  unfold classifyValue
  split_ifs with h1 h2 h3 h4
  · rw [is_integer_eq_false_of_null h1]; simp
  · simp [h2]
  · simp [h2]
  · simp [h2]
  · simp [h2]

theorem classifyValue_eq_float {v : String} :
    classifyValue v = VType.float ↔ is_float v = true := by
  unfold classifyValue
  split_ifs with h1 h2 h3 h4
  · rw [is_float_eq_false_of_null h1]; simp
  · have hff : is_float v = false := by
      cases hf : is_float v with
      | false => rfl
      | true =>
        exfalso
        rw [not_is_integer_of_is_float hf] at h2
        exact absurd h2 (by decide)
    rw [hff]; simp
  · simp [h3]
  · simp [h3]
  · simp [h3]

theorem classifyValue_eq_boolean {v : String} :
    classifyValue v = VType.boolean ↔
      (is_boolean v = true ∧ is_integer v = false ∧ is_float v = false) := by
  unfold classifyValue
  split_ifs with h1 h2 h3 h4
  · rw [is_boolean_eq_false_of_null h1]; simp
  · simp [h2]
  · simp [h3]
  · rw [Bool.not_eq_true] at h2 h3
    simp [h2, h3, h4]
  · simp [h4]

theorem classifyOpt_eq_float {v : Option String} :
    classifyOpt v = VType.float ↔ (v.map is_float).getD false = true := by
  cases v with
  | none => simp [classifyOpt]
  | some s => simpa [classifyOpt] using classifyValue_eq_float (v := s)

theorem classifyOpt_eq_integer {v : Option String} :
    classifyOpt v = VType.integer ↔ (v.map is_integer).getD false = true := by
  cases v with
  | none => simp [classifyOpt]
  | some s => simpa [classifyOpt] using classifyValue_eq_integer (v := s)

theorem classifyOpt_eq_boolean {v : Option String} :
    classifyOpt v = VType.boolean ↔
      ((v.map is_boolean).getD false = true ∧ (v.map is_integer).getD false = false ∧
        (v.map is_float).getD false = false) := by
  cases v with
  | none => simp [classifyOpt]
  | some s => simpa [classifyOpt] using classifyValue_eq_boolean (v := s)

/-- The `types_found`/priority computation of the source agrees with the
spec's description by per-shape "any" tests. -/
theorem inferColumnType_eq_specColumnType (vals : List (Option String)) :
    inferColumnType vals = specColumnType vals := by
  unfold inferColumnType columnTypeFromClasses specColumnType
  have hfl : (VType.float ∈ (vals.take 100).map classifyOpt) ↔
      ((vals.take 100).any (fun v => (v.map is_float).getD false) = true) := by
    rw [List.mem_map, List.any_eq_true]
    constructor
    · rintro ⟨v, hv, hcv⟩; exact ⟨v, hv, classifyOpt_eq_float.mp hcv⟩
    · rintro ⟨v, hv, hbv⟩; exact ⟨v, hv, classifyOpt_eq_float.mpr hbv⟩
  have hin : (VType.integer ∈ (vals.take 100).map classifyOpt) ↔
      ((vals.take 100).any (fun v => (v.map is_integer).getD false) = true) := by
    rw [List.mem_map, List.any_eq_true]
    constructor
    · rintro ⟨v, hv, hcv⟩; exact ⟨v, hv, classifyOpt_eq_integer.mp hcv⟩
    · rintro ⟨v, hv, hbv⟩; exact ⟨v, hv, classifyOpt_eq_integer.mpr hbv⟩
  by_cases h1 : (vals.take 100).any (fun v => (v.map is_float).getD false) = true
  · rw [if_pos (hfl.mpr h1), if_pos h1]
  · rw [if_neg (fun hmem => h1 (hfl.mp hmem)), if_neg h1]
    by_cases h2 : (vals.take 100).any (fun v => (v.map is_integer).getD false) = true
    · rw [if_pos (hin.mpr h2), if_pos h2]
    · rw [if_neg (fun hmem => h2 (hin.mp hmem)), if_neg h2]
      have hbo : (VType.boolean ∈ (vals.take 100).map classifyOpt) ↔
          ((vals.take 100).any (fun v => (v.map is_boolean).getD false) = true) := by
        rw [List.mem_map, List.any_eq_true]
        constructor
        · rintro ⟨v, hv, hcv⟩; exact ⟨v, hv, (classifyOpt_eq_boolean.mp hcv).1⟩
        · rintro ⟨v, hv, hbv⟩
          refine ⟨v, hv, classifyOpt_eq_boolean.mpr ⟨hbv, ?_, ?_⟩⟩
          · cases hx : (v.map is_integer).getD false with
            | false => rfl
            | true => exact absurd (List.any_eq_true.mpr ⟨v, hv, hx⟩) h2
          · cases hx : (v.map is_float).getD false with
            | false => rfl
            | true => exact absurd (List.any_eq_true.mpr ⟨v, hv, hx⟩) h1
      by_cases h3 : (vals.take 100).any (fun v => (v.map is_boolean).getD false) = true
      · rw [if_pos (hbo.mpr h3), if_pos h3]
      · rw [if_neg (fun hmem => h3 (hbo.mp hmem)), if_neg h3]

/-! ### Folded maximum, association lists, log append -/

theorem le_foldl_max (x : Int) (xs : List Int) : x ≤ xs.foldl max x := by
  induction xs generalizing x with
  | nil => exact le_refl x
  | cons a l ih =>
    simp only [List.foldl_cons]
    exact le_trans (le_max_left x a) (ih (max x a))

theorem mem_le_foldl_max {n : Int} {xs : List Int} (x : Int) (h : n ∈ xs) :
    n ≤ xs.foldl max x := by
  induction xs generalizing x with
  | nil => cases h
  | cons a l ih =>
    simp only [List.foldl_cons]
    rcases List.mem_cons.mp h with rfl | h'
    · exact le_trans (le_max_right x n) (le_foldl_max _ _)
    · exact ih _ h'

theorem foldl_max_mem (x : Int) (xs : List Int) : xs.foldl max x = x ∨ xs.foldl max x ∈ xs := by
  induction xs generalizing x with
  | nil => left; rfl
  | cons a l ih =>
    simp only [List.foldl_cons]
    rcases ih (max x a) with h | h
    · rcases max_choice x a with hm | hm
      · left; rw [h, hm]
      · right; rw [h, hm]; exact List.mem_cons_self a l
    · right; exact List.mem_cons_of_mem a h

theorem find?_overwrite (m : List (String × Metadata)) (k : String) (v : Metadata)
    (hc : m.any (fun p => p.1 == k) = true) :
    (m.map (fun p => if p.1 == k then (k, v) else p)).find? (fun p => p.1 == k) =
      some (k, v) := by
  induction m with
  | nil => simp at hc
  | cons p l ih =>
    simp only [List.map_cons]
    by_cases hp : (p.1 == k) = true
    · rw [if_pos hp]
      rw [List.find?_cons_of_pos]
      simp
    · rw [if_neg hp]
      rw [List.find?_cons_of_neg]
      · apply ih
        rw [List.any_cons, Bool.or_eq_true] at hc
        rcases hc with h | h
        · exact absurd h hp
        · exact h
      · simpa using hp

theorem lookupMeta_setMeta (m : List (String × Metadata)) (k : String) (v : Metadata) :
    lookupMeta (setMeta m k v) k = some v := by
  unfold lookupMeta setMeta
  by_cases hc : m.any (fun p => p.1 == k) = true
  · rw [if_pos hc, find?_overwrite m k v hc]
    rfl
  · rw [if_neg hc]
    have hnone : m.find? (fun p => p.1 == k) = none := by
      rw [List.find?_eq_none]
      intro x hx hpx
      exact hc (List.any_eq_true.mpr ⟨x, hx, hpx⟩)
    rw [List.find?_append, hnone]
    simp

theorem pyDictGet_eq_of_nodup {l : List (String × String)}
    (hnd : (l.map Prod.fst).Nodup) {p : String × String} (hp : p ∈ l) :
    pyDictGet l p.1 = some p.2 := by
  induction l with
  | nil => cases hp
  | cons q l ih =>
    rw [List.map_cons, List.nodup_cons] at hnd
    rcases List.mem_cons.mp hp with rfl | hp'
    · unfold pyDictGet
      rw [List.find?_cons_of_pos _ (by simp)]
      simp
    · unfold pyDictGet
      have hne : (q.1 == p.1) = false := by
        have hmem : p.1 ∈ l.map Prod.fst := List.mem_map_of_mem Prod.fst hp'
        have : q.1 ≠ p.1 := fun he => hnd.1 (he ▸ hmem)
        simpa using this
      rw [List.find?_cons_of_neg]
      · exact ih hnd.2 hp'
      · simpa using hne

theorem get_next_nil {entries : List DirEntry} (hE : existingVersionNums entries = []) :
    get_next_version_number entries = 1 := by
  unfold get_next_version_number
  rw [hE]

theorem get_next_cons {entries : List DirEntry} {x : Int} {xs : List Int}
    (hE : existingVersionNums entries = x :: xs) :
    get_next_version_number entries = xs.foldl max x + 1 := by
  unfold get_next_version_number
  rw [hE]

theorem history_append (lf : LogFile) (ev : RollbackEvent) (h : LogWritable lf) :
    get_rollback_history (log_rollback_event lf ev true) =
      get_rollback_history lf ++ [ev] := by
  cases lf with
  | missing => rfl
  | unreadable => exact h.elim
  | parsed o =>
    cases o with
    | none => exact h.elim
    | some evs => rfl

theorem create_rollback_backup_none (m : List (String × Metadata)) (ts : String)
    (ioOk : Bool) : create_rollback_backup m none ts ioOk = m := by
  unfold create_rollback_backup
  cases ioOk <;> rfl

theorem changedTypes_self {l : List (String × String)} (hnd : (l.map Prod.fst).Nodup) :
    changedTypes l l = [] := by
  unfold changedTypes
  rw [List.filterMap_eq_nil_iff]
  intro p hp
  rw [pyDictGet_eq_of_nodup hnd hp]
  simp

theorem generate_summary_no_changes {rcc : RowCountComparison} {cc : ColumnComparison}
    {dtc : DataTypeComparison}
    (h1 : rcc.difference = 0) (h2 : cc.columns_added_count = 0)
    (h3 : cc.columns_removed_count = 0) (h4 : dtc.total_changes = 0) :
    generate_summary (some rcc) (some cc) (some dtc) =
      ⟨0, ["No significant differences found"]⟩ := by
  simp [generate_summary, h1, h2, h3, h4]

/-! ### Claim theorems -/

/-- C3: type inference samples up to the first 100 data rows, classifies
each sampled value into null / integer / float / boolean / string, and
chooses the column type by priority float > integer > boolean > string;
in particular `["1","2","3"]` infers `integer`, `["1.5","2.0"]` infers
`float`, `["true","false"]` infers `boolean`, and the mixed
`["1","true","x"]` infers `integer`. -/
theorem typeInference_priority_and_examples :
    (∀ vals : List (Option String), inferColumnType vals = specColumnType vals) ∧
    inferColumnType [some "1", some "2", some "3"] = "integer" ∧
    inferColumnType [some "1.5", some "2.0"] = "float" ∧
    inferColumnType [some "true", some "false"] = "boolean" ∧
    inferColumnType [some "1", some "true", some "x"] = "integer" :=
  ⟨inferColumnType_eq_specColumnType, by decide, by decide, by decide, by decide⟩

/-- C4: the next version identifier is 1 plus the maximum numeric suffix
among existing version directories (1 when none exist), it is strictly
greater than every existing suffix (so never reuses one), and a
successful `create_version` names its version `v` followed by exactly
this number. -/
theorem nextVersionNumber_spec (entries : List DirEntry) :
    ((existingVersionNums entries = [] ∧ get_next_version_number entries = 1) ∨
      (∃ m, m ∈ existingVersionNums entries ∧
        (∀ n ∈ existingVersionNums entries, n ≤ m) ∧
        get_next_version_number entries = m + 1)) ∧
    (∀ n ∈ existingVersionNums entries, n < get_next_version_number entries) ∧
    (∀ cfg st inputExists input_file file fileHash fileSize qs ts st' v,
      st.entries = entries →
      create_version cfg st inputExists input_file file fileHash fileSize qs ts =
        (st', Except.ok v) →
      v = "v" ++ toString (get_next_version_number entries)) := by
  have hA : (existingVersionNums entries = [] ∧ get_next_version_number entries = 1) ∨
      (∃ m, m ∈ existingVersionNums entries ∧
        (∀ n ∈ existingVersionNums entries, n ≤ m) ∧
        get_next_version_number entries = m + 1) := by
    cases hE : existingVersionNums entries with
    | nil => exact Or.inl ⟨rfl, get_next_nil hE⟩
    | cons x xs =>
      refine Or.inr ⟨xs.foldl max x, ?_, ?_, get_next_cons hE⟩
      · rcases foldl_max_mem x xs with h | h
        · rw [h]; exact List.mem_cons_self x xs
        · exact List.mem_cons_of_mem x h
      · intro n hn
        rcases List.mem_cons.mp hn with rfl | h'
        · exact le_foldl_max _ _
        · exact mem_le_foldl_max _ h'
  refine ⟨hA, ?_, ?_⟩
  · intro n hn
    rcases hA with ⟨hnil, -⟩ | ⟨m, -, hub, hval⟩
    · rw [hnil] at hn; cases hn
    · have hub' := hub n hn
      rw [hval]
      omega
  · intro cfg st inputExists input_file file fileHash fileSize qs ts st' v hst hrun
    unfold create_version at hrun
    split_ifs at hrun with h1 h2
    · rw [Prod.mk.injEq] at hrun
      exact absurd hrun.2 (by simp)
    · rw [Prod.mk.injEq] at hrun
      exact absurd hrun.2 (by simp)
    · rw [Prod.mk.injEq] at hrun
      have := hrun.2
      rw [hst] at this
      exact (Except.ok.injEq _ _ ▸ this).symm

/-- C4 witness: on a listing holding `v3` and `v10` (and junk), the next
number is 11, every existing suffix is below it, and `create_version`
returns `v11`. -/
theorem nextVersionNumber_spec_witness :
    (3 : Int) ∈ existingVersionNums [⟨"v3", true⟩, ⟨"v10", true⟩, ⟨"data", true⟩] ∧
    (3 : Int) < get_next_version_number [⟨"v3", true⟩, ⟨"v10", true⟩, ⟨"data", true⟩] ∧
    (∃ st' v,
      create_version ⟨true, true, true, true, true⟩
        ⟨[⟨"v3", true⟩, ⟨"v10", true⟩, ⟨"data", true⟩], [], none, none, .missing⟩
        true "d.csv" (.ok [["a"], ["1"]]) "h" 7 none "t0" = (st', Except.ok v) ∧
      v = "v11") := by
  refine ⟨by decide, (nextVersionNumber_spec _).2.1 3 (by decide), ?_⟩
  refine ⟨_, _, rfl, ?_⟩
  have h := (nextVersionNumber_spec [⟨"v3", true⟩, ⟨"v10", true⟩, ⟨"data", true⟩]).2.2
    ⟨true, true, true, true, true⟩
    ⟨[⟨"v3", true⟩, ⟨"v10", true⟩, ⟨"data", true⟩], [], none, none, .missing⟩
    true "d.csv" (.ok [["a"], ["1"]]) "h" 7 none "t0" _ _ rfl rfl
  rw [h]
  decide

/-- C6: `get_all_versions` returns exactly the directory entries matching
the `v<integer>` pattern, sorted ascending by the numeric suffix; with
`v10, v9, v1, v2` on disk the result is `[v1, v2, v9, v10]`. -/
theorem getAllVersions_spec (entries : List DirEntry) :
    (get_all_versions entries).Perm (versionDirFilter entries) ∧
    (∀ s, s ∈ get_all_versions entries ↔
      ∃ e ∈ entries, e.name = s ∧ e.isDir = true ∧
        startsWithV s = true ∧ (versionNumOf s).isSome = true) ∧
    List.Sorted versionLe (get_all_versions entries) ∧
    get_all_versions [⟨"v10", true⟩, ⟨"v9", true⟩, ⟨"v1", true⟩, ⟨"v2", true⟩] =
      ["v1", "v2", "v9", "v10"] := by
  refine ⟨List.perm_insertionSort versionLe _, ?_, List.sorted_insertionSort versionLe _, by decide⟩
  intro s
  rw [get_all_versions, List.mem_insertionSort, versionDirFilter, List.mem_filterMap]
  constructor
  · rintro ⟨e, he, hsome⟩
    by_cases hcond : (startsWithV e.name && e.isDir && (versionNumOf e.name).isSome) = true
    · rw [if_pos hcond] at hsome
      rw [Bool.and_eq_true, Bool.and_eq_true] at hcond
      obtain rfl : e.name = s := by injection hsome
      exact ⟨e, he, rfl, hcond.1.2, hcond.1.1, hcond.2⟩
    · rw [if_neg hcond] at hsome
      cases hsome
  · rintro ⟨e, he, rfl, hd, hv, hn⟩
    refine ⟨e, he, ?_⟩
    rw [if_pos]
    rw [Bool.and_eq_true, Bool.and_eq_true]
    exact ⟨⟨hv, hd⟩, hn⟩

/-- C5: for every valid CSV input (a header line plus data lines),
`create_version` followed by `get_version_metadata` on the returned
identifier yields `row_count` = number of lines minus the header line and
`columns` = the header row in original order. -/
theorem createVersion_metadata_roundtrip (cfg : MetaConfig) (st : FsState)
    (input_file : String) (header : List String) (rows : List (List String))
    (fileHash ts : String) (fileSize : Nat)
    (hcsv : endsWithCsv (pyBasename input_file) = true)
    (hrc : cfg.include_row_count = true) (hcols : cfg.include_columns = true) :
    ∃ st' v md,
      create_version cfg st true input_file (CsvRead.ok (header :: rows)) fileHash fileSize
          none ts = (st', Except.ok v) ∧
      get_version_metadata st' v = some md ∧
      md.row_count = some ((header :: rows).length - 1) ∧
      md.columns = some header := by
  refine ⟨_, "v" ++ toString (get_next_version_number st.entries),
    generate_metadata cfg ("v" ++ toString (get_next_version_number st.entries))
      (pyBasename input_file) input_file (CsvRead.ok (header :: rows)) fileHash fileSize
      none ts, rfl, ?_, ?_, ?_⟩
  · exact lookupMeta_setMeta _ _ _
  · simp [generate_metadata, hcsv, hrc, analyze_csv]
  · simp [generate_metadata, hcsv, hcols, analyze_csv]

/-- C5 witness: a three-line CSV (header `a,b` plus two data rows) creates
a version whose metadata records two rows and columns `[a, b]`. -/
theorem createVersion_metadata_roundtrip_witness :
    endsWithCsv (pyBasename "data.csv") = true ∧
    (∃ st' v md,
      create_version ⟨true, true, true, true, true⟩ ⟨[], [], none, none, .missing⟩ true
          "data.csv" (CsvRead.ok [["a", "b"], ["1", "2"], ["3", "4"]]) "h" 9 none "t" =
        (st', Except.ok v) ∧
      get_version_metadata st' v = some md ∧
      md.row_count = some 2 ∧ md.columns = some ["a", "b"]) := by
  refine ⟨by decide, ?_⟩
  have h := createVersion_metadata_roundtrip ⟨true, true, true, true, true⟩
    ⟨[], [], none, none, .missing⟩ "data.csv" ["a", "b"] [["1", "2"], ["3", "4"]]
    "h" "t" 9 (by decide) rfl rfl
  simpa using h

/-- C8 counterexample: when row reading raises after the header `[a, b]`
was read, `_analyze_csv` returns the header as the column list, not the
empty list the claim states. -/
theorem analyzeCsv_rowsFail_counterexample :
    analyze_csv (CsvRead.rowsFail ["a", "b"]) = (0, ["a", "b"]) ∧
    (analyze_csv (CsvRead.rowsFail ["a", "b"])).2 ≠ [] :=
  ⟨rfl, by decide⟩

/-- C8 amended: an exception during CSV analysis is caught; analysis falls
back to zero rows, with an empty column list when the failure precedes
the header read but with the already-read header as column list when row
reading raises after the header; `create_version` still completes and
produces a version with this degraded metadata. -/
theorem analyzeCsv_degraded_fallback (cfg : MetaConfig) (st : FsState)
    (input_file fileHash ts : String) (fileSize : Nat) (header : List String)
    (hcsv : endsWithCsv (pyBasename input_file) = true)
    (hrc : cfg.include_row_count = true) (hcols : cfg.include_columns = true) :
    analyze_csv CsvRead.readFail = (0, []) ∧
    analyze_csv (CsvRead.rowsFail header) = (0, header) ∧
    (∃ st' v md,
      create_version cfg st true input_file (CsvRead.rowsFail header) fileHash fileSize
          none ts = (st', Except.ok v) ∧
      get_version_metadata st' v = some md ∧
      md.row_count = some 0 ∧ md.columns = some header) := by
  refine ⟨rfl, rfl, _, "v" ++ toString (get_next_version_number st.entries),
    generate_metadata cfg ("v" ++ toString (get_next_version_number st.entries))
      (pyBasename input_file) input_file (CsvRead.rowsFail header) fileHash fileSize
      none ts, rfl, ?_, ?_, ?_⟩
  · exact lookupMeta_setMeta _ _ _
  · simp [generate_metadata, hcsv, hrc, analyze_csv]
  · simp [generate_metadata, hcsv, hcols, analyze_csv]

/-- C8 amended witness: with the header `[a]` read and row reading failing,
`create_version` completes and the stored metadata holds zero rows and
columns `[a]`. -/
theorem analyzeCsv_degraded_fallback_witness :
    endsWithCsv (pyBasename "in.csv") = true ∧
    analyze_csv (CsvRead.rowsFail ["a"]) = (0, ["a"]) ∧
    (∃ st' v md,
      create_version ⟨true, true, true, true, true⟩ ⟨[], [], none, none, .missing⟩ true
          "in.csv" (CsvRead.rowsFail ["a"]) "h" 3 none "t" = (st', Except.ok v) ∧
      get_version_metadata st' v = some md ∧
      md.row_count = some 0 ∧ md.columns = some ["a"]) := by
  refine ⟨by decide, rfl, ?_⟩
  have h := analyzeCsv_degraded_fallback ⟨true, true, true, true, true⟩
    ⟨[], [], none, none, .missing⟩ "in.csv" "h" "t" 3 ["a"] (by decide) rfl rfl
  exact h.2.2

/-- C7: comparing a version with itself (same metadata and dataset) yields
a row-count difference of 0, no added or removed columns, no type
changes, and a summary with zero total differences whose key changes
report the no-significant-differences message. -/
theorem compareVersions_self (ccfg : CompareConfig) (v ts : String) (md : Metadata)
    (ds : List (List String))
    (hr : ccfg.compare_row_count = true) (hc : ccfg.compare_columns = true)
    (ht : ccfg.compare_data_types = true)
    (hnodup : ((md.data_types.getD []).map Prod.fst).Nodup) :
    ∃ rcc cc dtc,
      (compare_versions ccfg v v md md ds ds ts).row_count_comparison = some rcc ∧
      rcc.difference = 0 ∧ rcc.percentage_change = 0 ∧ rcc.direction = "no change" ∧
      (compare_versions ccfg v v md md ds ds ts).column_comparison = some cc ∧
      cc.added_columns = ∅ ∧ cc.removed_columns = ∅ ∧
      cc.columns_added_count = 0 ∧ cc.columns_removed_count = 0 ∧
      (compare_versions ccfg v v md md ds ds ts).data_type_comparison = some dtc ∧
      dtc.changed_columns = [] ∧ dtc.total_changes = 0 ∧
      (compare_versions ccfg v v md md ds ds ts).summary =
        ⟨0, ["No significant differences found"]⟩ := by
  have hrc : compare_row_counts md md =
      ⟨md.row_count.getD 0, md.row_count.getD 0, 0, 0, "no change"⟩ := by
    unfold compare_row_counts
    simp [round2]
  have hcc : compare_columns md md =
      ⟨(md.columns.getD []).toFinset.card, (md.columns.getD []).toFinset.card,
        ∅, ∅, (md.columns.getD []).toFinset ∩ (md.columns.getD []).toFinset, 0, 0⟩ := by
    unfold compare_columns
    simp [Finset.sdiff_self]
  have hdtc : compare_data_types md md = ⟨[], 0⟩ := by
    unfold compare_data_types
    rw [changedTypes_self hnodup]
    rfl
  have hfields : (compare_versions ccfg v v md md ds ds ts).row_count_comparison =
        some (compare_row_counts md md) ∧
      (compare_versions ccfg v v md md ds ds ts).column_comparison =
        some (compare_columns md md) ∧
      (compare_versions ccfg v v md md ds ds ts).data_type_comparison =
        some (compare_data_types md md) ∧
      (compare_versions ccfg v v md md ds ds ts).summary =
        generate_summary (some (compare_row_counts md md)) (some (compare_columns md md))
          (some (compare_data_types md md)) := by
    unfold compare_versions
    simp [hr, hc, ht]
  refine ⟨compare_row_counts md md, compare_columns md md, compare_data_types md md,
    hfields.1, ?_, ?_, ?_, hfields.2.1, ?_, ?_, ?_, ?_, hfields.2.2.1, ?_, ?_, ?_⟩
  · rw [hrc]
  · rw [hrc]
  · rw [hrc]
  · rw [hcc]
  · rw [hcc]
  · rw [hcc]
  · rw [hcc]
  · rw [hdtc]
  · rw [hdtc]
  · rw [hfields.2.2.2]
    exact generate_summary_no_changes (by rw [hrc]) (by rw [hcc]) (by rw [hcc]) (by rw [hdtc])

/-- C7 witness: self-comparison of a concrete version record reports no
differences. -/
theorem compareVersions_self_witness :
    ((mdDemo.data_types.getD []).map Prod.fst).Nodup ∧
    (∃ rcc cc dtc,
      (compare_versions ⟨true, true, true, false, 5⟩ "v1" "v1" mdDemo mdDemo [] [] "t").row_count_comparison = some rcc ∧
      rcc.difference = 0 ∧ rcc.percentage_change = 0 ∧ rcc.direction = "no change" ∧
      (compare_versions ⟨true, true, true, false, 5⟩ "v1" "v1" mdDemo mdDemo [] [] "t").column_comparison = some cc ∧
      cc.added_columns = ∅ ∧ cc.removed_columns = ∅ ∧
      cc.columns_added_count = 0 ∧ cc.columns_removed_count = 0 ∧
      (compare_versions ⟨true, true, true, false, 5⟩ "v1" "v1" mdDemo mdDemo [] [] "t").data_type_comparison = some dtc ∧
      dtc.changed_columns = [] ∧ dtc.total_changes = 0 ∧
      (compare_versions ⟨true, true, true, false, 5⟩ "v1" "v1" mdDemo mdDemo [] [] "t").summary =
        ⟨0, ["No significant differences found"]⟩) := by
  refine ⟨by decide, ?_⟩
  exact compareVersions_self ⟨true, true, true, false, 5⟩ "v1" "t" mdDemo [] rfl rfl rfl
    (by decide)

/-- C1: after a successful rollback from current version A to an existing
target B, the current-version marker equals B regardless of whether the
best-effort backup or audit steps succeeded; when the audit write
succeeds on a writable log, the history gains exactly one entry
{from A, to B}; and when backup is requested, enabled by configuration
and its write succeeds, A's metadata record gains exactly one new backup
annotation entry. -/
theorem rollback_success_postconditions (cfg : RbConfig) (st : FsState) (a target : String)
    (cb : Bool) (ts : String) (backupOk auditOk : Bool)
    (hcur : st.currentVersionFile = some a)
    (hmem : target ∈ get_all_versions st.entries)
    (hne : a ≠ target) :
    ((rollback_to_version cfg st target cb ts backupOk auditOk).2 = Except.ok true) ∧
    (rollback_to_version cfg st target cb ts backupOk auditOk).1.currentVersionFile =
      some target ∧
    (auditOk = true → LogWritable st.rollbackLog →
      get_rollback_history
          (rollback_to_version cfg st target cb ts backupOk auditOk).1.rollbackLog =
        get_rollback_history st.rollbackLog ++ [⟨ts, some a, target⟩]) ∧
    (∀ mdA, cb = true → cfg.backup_before_rollback = true → backupOk = true →
      lookupMeta st.metadataOf a = some mdA →
      lookupMeta (rollback_to_version cfg st target cb ts backupOk auditOk).1.metadataOf a =
        some (addBackup mdA ts a)) := by
  have hrun : rollback_to_version cfg st target cb ts backupOk auditOk =
      ({ st with
          metadataOf :=
            if cb && cfg.backup_before_rollback then
              create_rollback_backup st.metadataOf (some a) ts backupOk
            else st.metadataOf
          currentVersionFile := some target
          rollbackLog := log_rollback_event st.rollbackLog ⟨ts, some a, target⟩ auditOk },
        Except.ok true) := by
    unfold rollback_to_version get_current_version
    rw [if_neg (not_not_intro hmem), hcur,
      if_neg (fun h => hne (Option.some.inj h))]
  refine ⟨by rw [hrun], by rw [hrun], ?_, ?_⟩
  · intro ha hw
    subst ha
    rw [hrun]
    exact history_append _ _ hw
  · intro mdA hcb hbc hbok hlk
    rw [hrun]
    simp [hcb, hbc, hbok, create_rollback_backup, hlk, lookupMeta_setMeta]

/-- C1 witness: rolling back from `v2` to `v1` with backup requested and
both best-effort writes succeeding sets the marker to `v1`, logs exactly
one audit entry and annotates `v2`'s metadata with one backup entry. -/
theorem rollback_success_postconditions_witness :
    ("v1" ∈ get_all_versions [⟨"v1", true⟩, ⟨"v2", true⟩]) ∧
    (rollback_to_version ⟨true⟩
        ⟨[⟨"v1", true⟩, ⟨"v2", true⟩], [("v2", mdDemo)], some "v2", none, .missing⟩
        "v1" true "t" true true).1.currentVersionFile = some "v1" ∧
    get_rollback_history (rollback_to_version ⟨true⟩
        ⟨[⟨"v1", true⟩, ⟨"v2", true⟩], [("v2", mdDemo)], some "v2", none, .missing⟩
        "v1" true "t" true true).1.rollbackLog = [⟨"t", some "v2", "v1"⟩] ∧
    lookupMeta (rollback_to_version ⟨true⟩
        ⟨[⟨"v1", true⟩, ⟨"v2", true⟩], [("v2", mdDemo)], some "v2", none, .missing⟩
        "v1" true "t" true true).1.metadataOf "v2" = some (addBackup mdDemo "t" "v2") := by
  have h := rollback_success_postconditions ⟨true⟩
    ⟨[⟨"v1", true⟩, ⟨"v2", true⟩], [("v2", mdDemo)], some "v2", none, .missing⟩
    "v2" "v1" true "t" true true rfl (by decide) (by decide)
  refine ⟨by decide, h.2.1, ?_, ?_⟩
  · have h3 := h.2.2.1 rfl trivial
    simpa using h3
  · exact h.2.2.2 mdDemo rfl rfl rfl (by decide)

/-- C2: rollback to a target absent from the versions on disk raises
not-found; rollback to the current version raises the already-at-version
validation error; in both cases the returned persisted state is exactly
the input state (marker, metadata, index and rollback history untouched). -/
theorem rollback_failure_preserves_state (cfg : RbConfig) (st : FsState) (target : String)
    (cb : Bool) (ts : String) (backupOk auditOk : Bool) :
    (target ∉ get_all_versions st.entries →
      rollback_to_version cfg st target cb ts backupOk auditOk =
        (st, Except.error (RbError.notFound target))) ∧
    (target ∈ get_all_versions st.entries → st.currentVersionFile = some target →
      rollback_to_version cfg st target cb ts backupOk auditOk =
        (st, Except.error (RbError.alreadyAt target))) := by
  constructor
  · intro hnm
    unfold rollback_to_version
    rw [if_pos hnm]
  · intro hmem hcur
    unfold rollback_to_version get_current_version
    rw [if_neg (not_not_intro hmem), hcur, if_pos rfl]

/-- C2 witness: with only `v1` on disk and `v1` current, rolling back to
the unknown `v9` raises not-found and rolling back to `v1` raises the
already-at error, both leaving the state exactly as it was. -/
theorem rollback_failure_preserves_state_witness :
    ("v9" ∉ get_all_versions [⟨"v1", true⟩]) ∧
    rollback_to_version ⟨true⟩ ⟨[⟨"v1", true⟩], [], some "v1", none, .missing⟩
        "v9" true "t" true true =
      (⟨[⟨"v1", true⟩], [], some "v1", none, .missing⟩,
        Except.error (RbError.notFound "v9")) ∧
    ("v1" ∈ get_all_versions [⟨"v1", true⟩]) ∧
    rollback_to_version ⟨true⟩ ⟨[⟨"v1", true⟩], [], some "v1", none, .missing⟩
        "v1" true "t" true true =
      (⟨[⟨"v1", true⟩], [], some "v1", none, .missing⟩,
        Except.error (RbError.alreadyAt "v1")) := by
  refine ⟨by decide, ?_, by decide, ?_⟩
  · exact (rollback_failure_preserves_state ⟨true⟩
      ⟨[⟨"v1", true⟩], [], some "v1", none, .missing⟩ "v9" true "t" true true).1 (by decide)
  · exact (rollback_failure_preserves_state ⟨true⟩
      ⟨[⟨"v1", true⟩], [], some "v1", none, .missing⟩ "v1" true "t" true true).2
      (by decide) rfl

/-- C9: when the current-version marker has never been set, rollback to any
existing target succeeds (the already-at check cannot trigger against an
unset marker), the marker becomes the target, the metadata files are
untouched (the backup step's `TypeError` on the `None` name is caught),
and a successful audit write records the absent value as from-version. -/
theorem rollback_unset_marker (cfg : RbConfig) (st : FsState) (target : String)
    (cb : Bool) (ts : String) (backupOk auditOk : Bool)
    (hcur : st.currentVersionFile = none)
    (hmem : target ∈ get_all_versions st.entries) :
    ((rollback_to_version cfg st target cb ts backupOk auditOk).2 = Except.ok true) ∧
    (rollback_to_version cfg st target cb ts backupOk auditOk).1.currentVersionFile =
      some target ∧
    (rollback_to_version cfg st target cb ts backupOk auditOk).1.metadataOf =
      st.metadataOf ∧
    (auditOk = true → LogWritable st.rollbackLog →
      get_rollback_history
          (rollback_to_version cfg st target cb ts backupOk auditOk).1.rollbackLog =
        get_rollback_history st.rollbackLog ++ [⟨ts, none, target⟩]) := by
  have hrun : rollback_to_version cfg st target cb ts backupOk auditOk =
      ({ st with
          metadataOf :=
            if cb && cfg.backup_before_rollback then
              create_rollback_backup st.metadataOf none ts backupOk
            else st.metadataOf
          currentVersionFile := some target
          rollbackLog := log_rollback_event st.rollbackLog ⟨ts, none, target⟩ auditOk },
        Except.ok true) := by
    unfold rollback_to_version get_current_version
    rw [if_neg (not_not_intro hmem), hcur,
      if_neg (fun h => Option.noConfusion h)]
  refine ⟨by rw [hrun], by rw [hrun], ?_, ?_⟩
  · rw [hrun]
    simp [create_rollback_backup_none]
  · intro ha hw
    subst ha
    rw [hrun]
    exact history_append _ _ hw

/-- C9 witness: with the marker never set and `v1` on disk, rollback to
`v1` succeeds, sets the marker and logs an audit entry whose from-version
is the absent value. -/
theorem rollback_unset_marker_witness :
    ("v1" ∈ get_all_versions [⟨"v1", true⟩]) ∧
    ((rollback_to_version ⟨true⟩ ⟨[⟨"v1", true⟩], [], none, none, .missing⟩
        "v1" true "t" true true).2 = Except.ok true) ∧
    (rollback_to_version ⟨true⟩ ⟨[⟨"v1", true⟩], [], none, none, .missing⟩
        "v1" true "t" true true).1.currentVersionFile = some "v1" ∧
    get_rollback_history (rollback_to_version ⟨true⟩
        ⟨[⟨"v1", true⟩], [], none, none, .missing⟩
        "v1" true "t" true true).1.rollbackLog = [⟨"t", none, "v1"⟩] := by
  have h := rollback_unset_marker ⟨true⟩ ⟨[⟨"v1", true⟩], [], none, none, .missing⟩
    "v1" true "t" true true rfl (by decide)
  refine ⟨by decide, h.1, h.2.1, ?_⟩
  have h4 := h.2.2.2 rfl trivial
  simpa using h4

/-- C10: `get_rollback_history` is total: it returns the recorded list when
the log file parses with a `rollbacks` list, and the empty list when the
file is missing, unreadable, or lacks the key; a successful append adds
the new event at the end, so the list is oldest first. -/
theorem rollbackHistory_total (lf : LogFile) (ev : RollbackEvent) :
    (lf = LogFile.missing → get_rollback_history lf = []) ∧
    (lf = LogFile.unreadable → get_rollback_history lf = []) ∧
    (lf = LogFile.parsed none → get_rollback_history lf = []) ∧
    (∀ evs, lf = LogFile.parsed (some evs) → get_rollback_history lf = evs) ∧
    (LogWritable lf →
      get_rollback_history (log_rollback_event lf ev true) =
        get_rollback_history lf ++ [ev]) := by
  refine ⟨?_, ?_, ?_, ?_, history_append lf ev⟩
  · rintro rfl; rfl
  · rintro rfl; rfl
  · rintro rfl; rfl
  · intro evs h
    subst h
    rfl

/-- C10 witness: the four log-file shapes produce the described histories
and appending an event extends the list at the end. -/
theorem rollbackHistory_total_witness :
    get_rollback_history LogFile.missing = [] ∧
    get_rollback_history LogFile.unreadable = [] ∧
    get_rollback_history (LogFile.parsed none) = [] ∧
    get_rollback_history (LogFile.parsed (some [⟨"t", some "v2", "v1"⟩])) =
      [⟨"t", some "v2", "v1"⟩] ∧
    get_rollback_history (log_rollback_event
        (LogFile.parsed (some [⟨"t", some "v2", "v1"⟩])) ⟨"u", some "v1", "v3"⟩ true) =
      [⟨"t", some "v2", "v1"⟩, ⟨"u", some "v1", "v3"⟩] := by
  refine ⟨(rollbackHistory_total LogFile.missing ⟨"u", none, "v3"⟩).1 rfl,
    (rollbackHistory_total LogFile.unreadable ⟨"u", none, "v3"⟩).2.1 rfl,
    (rollbackHistory_total (LogFile.parsed none) ⟨"u", none, "v3"⟩).2.2.1 rfl,
    (rollbackHistory_total (LogFile.parsed (some [⟨"t", some "v2", "v1"⟩]))
      ⟨"u", none, "v3"⟩).2.2.2.1 _ rfl, ?_⟩
  have h := (rollbackHistory_total (LogFile.parsed (some [⟨"t", some "v2", "v1"⟩]))
    ⟨"u", some "v1", "v3"⟩).2.2.2.2 trivial
  simpa using h

end SentinelETL
